import Mathlib

/-!
Verification development for the ytjobs scraper (`src/app.py`).

The file shallowly embeds the pure/control-flow content of `app.py`:
the date normalizer `parse_and_format_date`, the link collector
`collect_job_links`, the per-page extractor `scrape_job_details`, the two
CSV writers `save_to_csv` / `save_todays_jobs`, the dedup loop of `main`,
and the "See More" click loop `click_see_more_button`.  Browser effects
(navigation, waits, element lookups) are modelled as environment data;
Python exceptions are modelled explicitly as values.
-/

/-- A Python exception value, as far as the scraper distinguishes them:
`TimeoutException`, `ElementClickInterceptedException`, and everything else
caught by a bare `except Exception`. -/
inductive PyExc where
  | timeoutExc : PyExc
  | interceptedExc : PyExc
  | other : String → PyExc
deriving DecidableEq

/-! ## Python string primitives used by `app.py` -/

/-- Python whitespace test for `str.strip` / the regex class `\s`
(ASCII fragment). -/
def pyIsSpace (c : Char) : Bool :=
  c == ' ' || c == '\t' || c == '\n' || c == '\r' || c == '\x0b' || c == '\x0c'

/-- Python `pat in s` substring test, on character lists. -/
def strContainsL (hay pat : List Char) : Bool :=
  (List.range (hay.length + 1)).any (fun i => pat.isPrefixOf (hay.drop i))

/-- Python `str.strip()`: drop leading and trailing whitespace. -/
def pyStrip (cs : List Char) : List Char :=
  ((cs.dropWhile pyIsSpace).reverse.dropWhile pyIsSpace).reverse

/-- The marker prefix stripped by `parse_and_format_date` (line 244). -/
def markerL : List Char := "Posted on:".toList

/-- Python `raw.replace("Posted on:", "")`: remove every occurrence of the
10-character marker `"Posted on:"`, scanning left to right (line 245).
The occurrence is matched by an explicit pattern so the recursion stays
structural (and hence kernel-reducible). -/
def removeMarker : List Char → List Char
  | 'P' :: 'o' :: 's' :: 't' :: 'e' :: 'd' :: ' ' :: 'o' :: 'n' :: ':' :: rest =>
    removeMarker rest
  | c :: rest => c :: removeMarker rest
  | [] => []

/-! ## Calendar arithmetic (Python `datetime.date`, proleptic Gregorian) -/

/-- A calendar date as `datetime.date` holds it. -/
structure Date where
  month : Nat
  day : Nat
  year : Nat
deriving DecidableEq

/-- Gregorian leap-year rule, as `datetime` implements it. -/
def isLeap (y : Nat) : Bool :=
  (y % 4 == 0 && y % 100 != 0) || (y % 400 == 0)

/-- Days in a month, as `datetime` validates day-of-month. -/
def daysInMonth (m y : Nat) : Nat :=
  if m == 2 then (if isLeap y then 29 else 28)
  else if m == 4 || m == 6 || m == 9 || m == 11 then 30
  else 31

/-- Python `today - timedelta(days=1)` (line 253). -/
def predDate (d : Date) : Date :=
  if d.day > 1 then ⟨d.month, d.day - 1, d.year⟩
  else if d.month > 1 then ⟨d.month - 1, daysInMonth (d.month - 1) d.year, d.year⟩
  else ⟨12, 31, d.year - 1⟩

/-- Decimal digits of `n`, left-padded with zeros to width `k`. -/
def padL (k n : Nat) : List Char :=
  let ds := Nat.toDigits 10 n
  List.replicate (k - ds.length) '0' ++ ds

/-- Python `d.strftime("%m-%d-%Y")`, the canonical output format
(lines 251, 254, 261). -/
def fmtDate (d : Date) : String :=
  String.mk (padL 2 d.month ++ ('-' :: padL 2 d.day) ++ ('-' :: padL 4 d.year))

/-- The sentinel the scraper uses for unknown fields. -/
def naStr : String := "N/A"

/-! ## `datetime.strptime` for the four configured formats

Each format is modelled after CPython's `_strptime`: the format is turned
into an anchored, case-insensitive regex (`%b`/`%B` month-name alternation,
`%d`/`%m` 1-2 digit patterns with ordered alternatives, `%Y` exactly four
digits, whitespace in the format matching one-or-more whitespace), the
whole input must be consumed, and the matched numbers must then form a
valid calendar date (`day is out of range for month` raises `ValueError`,
failing that format). -/

/-- Case-insensitive prefix match: `pat` (already lowercase) against the
input; returns the rest of the input on success. -/
def lowerPrefixMatch : List Char → List Char → Option (List Char)
  | [], cs => some cs
  | _ :: _, [] => none
  | p :: ps, c :: cs => if c.toLower == p then lowerPrefixMatch ps cs else none

/-- Abbreviated month names (`calendar.month_abbr`, lowercased), for `%b`. -/
def monthAbbrs : List (List Char × Nat) :=
  [("jan".toList, 1), ("feb".toList, 2), ("mar".toList, 3), ("apr".toList, 4),
   ("may".toList, 5), ("jun".toList, 6), ("jul".toList, 7), ("aug".toList, 8),
   ("sep".toList, 9), ("oct".toList, 10), ("nov".toList, 11), ("dec".toList, 12)]

/-- Full month names (`calendar.month_name`, lowercased), for `%B`. -/
def monthFulls : List (List Char × Nat) :=
  [("january".toList, 1), ("february".toList, 2), ("march".toList, 3),
   ("april".toList, 4), ("may".toList, 5), ("june".toList, 6),
   ("july".toList, 7), ("august".toList, 8), ("september".toList, 9),
   ("october".toList, 10), ("november".toList, 11), ("december".toList, 12)]

/-- Match one month name (case-insensitively) from a name table. -/
def matchMonthIn : List (List Char × Nat) → List Char → Option (Nat × List Char)
  | [], _ => none
  | e :: t, cs =>
    match lowerPrefixMatch e.1 cs with
    | some rest => some (e.2, rest)
    | none => matchMonthIn t cs

/-- Consume one-or-more whitespace characters (the regex `\s+` that
`_strptime` substitutes for whitespace in the format). -/
def skipWs1 : List Char → Option (List Char)
  | [] => none
  | c :: rest => if pyIsSpace c then some (rest.dropWhile pyIsSpace) else none

/-- Digit value of a digit character. -/
def digitVal (c : Char) : Nat := c.toNat - '0'.toNat

/-- Whether the two-digit string `ab` matches `_strptime`'s day pattern
`3[01]|[12]\d|0[1-9]`. -/
def dayTwoOk (a b : Nat) : Bool :=
  (a == 3 && b ≤ 1) || a == 1 || a == 2 || (a == 0 && 1 ≤ b)

/-- Candidate matches of the day pattern `3[01]|[12]\d|0[1-9]|[1-9]`, in
regex backtracking order (two-digit alternatives before `[1-9]`). -/
def dayCands : List Char → List (Nat × List Char)
  | a :: b :: rest =>
    (if a.isDigit && b.isDigit && dayTwoOk (digitVal a) (digitVal b) then
       [(10 * digitVal a + digitVal b, rest)]
     else []) ++
    (if a.isDigit && 1 ≤ digitVal a then [(digitVal a, b :: rest)] else [])
  | [a] => if a.isDigit && 1 ≤ digitVal a then [(digitVal a, [])] else []
  | [] => []

/-- Whether the two-digit string `ab` matches `_strptime`'s month pattern
`1[0-2]|0[1-9]`. -/
def monthTwoOk (a b : Nat) : Bool :=
  (a == 1 && b ≤ 2) || (a == 0 && 1 ≤ b)

/-- Candidate matches of the month pattern `1[0-2]|0[1-9]|[1-9]`, in regex
backtracking order. -/
def monthCands : List Char → List (Nat × List Char)
  | a :: b :: rest =>
    (if a.isDigit && b.isDigit && monthTwoOk (digitVal a) (digitVal b) then
       [(10 * digitVal a + digitVal b, rest)]
     else []) ++
    (if a.isDigit && 1 ≤ digitVal a then [(digitVal a, b :: rest)] else [])
  | [a] => if a.isDigit && 1 ≤ digitVal a then [(digitVal a, [])] else []
  | [] => []

/-- `%Y`: exactly four digits. -/
def yearParse : List Char → Option (Nat × List Char)
  | a :: b :: c :: d :: rest =>
    if a.isDigit && b.isDigit && c.isDigit && d.isDigit then
      some (1000 * digitVal a + 100 * digitVal b + 10 * digitVal c + digitVal d, rest)
    else none
  | _ => none

/-- `datetime`'s validation of the matched numbers: `MINYEAR ≤ year` and
the day must exist in the month. A failure raises `ValueError`, which the
caller's `except ValueError: continue` treats as "this format failed". -/
def mkValidDate (m d y : Nat) : Option Date :=
  if 1 ≤ y && 1 ≤ d && d ≤ daysInMonth m y then some ⟨m, d, y⟩ else none

/-- Regex phase for `"%b %d %Y"` / `"%B %d %Y"`: month name, whitespace,
day, whitespace, four-digit year, end of input. -/
def regexNameFmt (tbl : List (List Char × Nat)) (cs : List Char) :
    Option (Nat × Nat × Nat) :=
  match matchMonthIn tbl cs with
  | none => none
  | some (m, r1) =>
    match skipWs1 r1 with
    | none => none
    | some r2 =>
      (dayCands r2).findSome? (fun dc =>
        match skipWs1 dc.2 with
        | none => none
        | some r3 =>
          match yearParse r3 with
          | none => none
          | some (y, r4) => if r4.isEmpty then some (m, dc.1, y) else none)

/-- Regex phase for `"%m/%d/%Y"` / `"%m-%d-%Y"` with separator `sep`. -/
def regexNumFmt (sep : Char) (cs : List Char) : Option (Nat × Nat × Nat) :=
  (monthCands cs).findSome? (fun mc =>
    match mc.2 with
    | c :: r2 =>
      if c == sep then
        (dayCands r2).findSome? (fun dc =>
          match dc.2 with
          | c2 :: r3 =>
            if c2 == sep then
              match yearParse r3 with
              | none => none
              | some (y, r4) => if r4.isEmpty then some (mc.1, dc.1, y) else none
            else none
          | [] => none)
      else none
    | [] => none)

/-- `datetime.strptime(s, "%b %d %Y")` as an `Option`. -/
def parseAbbrFmt (cs : List Char) : Option Date :=
  match regexNameFmt monthAbbrs cs with
  | none => none
  | some (m, d, y) => mkValidDate m d y

/-- `datetime.strptime(s, "%B %d %Y")` as an `Option`. -/
def parseFullFmt (cs : List Char) : Option Date :=
  match regexNameFmt monthFulls cs with
  | none => none
  | some (m, d, y) => mkValidDate m d y

/-- `datetime.strptime(s, "%m/%d/%Y")` as an `Option`. -/
def parseSlashFmt (cs : List Char) : Option Date :=
  match regexNumFmt '/' cs with
  | none => none
  | some (m, d, y) => mkValidDate m d y

/-- `datetime.strptime(s, "%m-%d-%Y")` as an `Option`. -/
def parseDashFmt (cs : List Char) : Option Date :=
  match regexNumFmt '-' cs with
  | none => none
  | some (m, d, y) => mkValidDate m d y

/-- The `for fmt in date_formats` loop of lines 257-264: attempt the four
formats in order and keep the first successful parse. -/
def firstParse (cs : List Char) : Option Date :=
  match parseAbbrFmt cs with
  | some d => some d
  | none =>
    match parseFullFmt cs with
    | some d => some d
    | none =>
      match parseSlashFmt cs with
      | some d => some d
      | none => parseDashFmt cs

/-- The relative token "Today" (line 250). -/
def todayL : List Char := "Today".toList

/-- The relative token "Yesterday" (line 252). -/
def yesterdayL : List Char := "Yesterday".toList

/-- Lines 243-247: remove the marker if present, then strip whitespace. -/
def strippedOf (raw : String) : List Char :=
  if strContainsL raw.toList markerL then pyStrip (removeMarker raw.toList)
  else pyStrip raw.toList

/-- `parse_and_format_date` (lines 234-271): the date normalizer.  `today0`
stands for `datetime.today().date()`. -/
def parse_and_format_date (today0 : Date) (raw : String) : String :=
  let ds := strippedOf raw
  if strContainsL ds todayL then fmtDate today0
  else if strContainsL ds yesterdayL then fmtDate (predDate today0)
  else
    match firstParse ds with
    | some d => fmtDate d
    | none => naStr

/-! ## Scheduler cycle boundary (`main`, lines 369-422)

One iteration of the `while True:` loop.  `setup_driver()` is called at
line 370, *outside* the `try:`; the `try` block covers lines 372-414, with
`except Exception` (line 415) logging, `finally: driver.quit()` (lines
418-419) releasing the session, and `time.sleep(CHECK_INTERVAL)` (line
422) running after the `finally`.  The iteration is a function of the two
failure sources: whether `setup_driver` raised, and whether the cycle body
raised. -/

/-- Observable effects of one `while True:` iteration of `main`:
whether `driver.quit()` ran, whether the sleep ran, and whether an
exception escaped the iteration (terminating the process). -/
structure IterResult where
  released : Bool
  slept : Bool
  crashed : Bool
deriving DecidableEq

/-- One iteration of the scheduler loop.  `setupResult`/`bodyResult` are
`some e` when `setup_driver()` (line 370) respectively the `try` body
(lines 372-414) raise `e`. -/
def mainLoopIter (setupResult : Option PyExc) (bodyResult : Option PyExc) : IterResult :=
  match setupResult with
  | some _ =>
    -- line 370 is outside the try/except/finally: the exception
    -- propagates out of `main`, skipping release and sleep
    { released := false, slept := false, crashed := true }
  | none =>
    match bodyResult with
    | some _ =>
      -- caught by `except Exception` (line 415); `finally` runs, then sleep
      { released := true, slept := true, crashed := false }
    | none =>
      { released := true, slept := true, crashed := false }

/-! ## `click_see_more_button` (lines 78-105)

The loop `while clicks < max_clicks` with four outcomes per attempt:
a successful click (`clicks += 1`), a `TimeoutException` (`break`, the
terminal success condition), an `ElementClickInterceptedException`
(pause and retry, `clicks` unchanged), and any other exception (`break`).
The loop is given fuel; `none` means the fuel ran out without the loop
terminating, so non-termination is `∀ fuel, ... = none`. -/

/-- Outcome of one click attempt in `click_see_more_button`. -/
inductive ClickOutcome where
  | success : ClickOutcome
  | timeoutHit : ClickOutcome
  | intercepted : ClickOutcome
  | otherFailure : ClickOutcome
deriving DecidableEq

/-- Why the click loop ended. -/
inductive ClickEnd where
  | noMoreButton : ClickEnd
  | errorStop : ClickEnd
  | budgetDone : ClickEnd
deriving DecidableEq

/-- Fuel-indexed run of the `while clicks < max_clicks` loop.  `outcomes i`
is the outcome of the `i`-th click attempt; returns the final click count
and the end reason, or `none` if `fuel` iterations did not suffice. -/
def clickRun (outcomes : Nat → ClickOutcome) (max_clicks : Nat) :
    Nat → Nat → Nat → Option (Nat × ClickEnd)
  | 0, _, _ => none
  | fuel + 1, clicks, i =>
    if clicks < max_clicks then
      match outcomes i with
      | ClickOutcome.success => clickRun outcomes max_clicks fuel (clicks + 1) (i + 1)
      | ClickOutcome.timeoutHit => some (clicks, ClickEnd.noMoreButton)
      | ClickOutcome.intercepted => clickRun outcomes max_clicks fuel clicks (i + 1)
      | ClickOutcome.otherFailure => some (clicks, ClickEnd.errorStop)
    else some (clicks, ClickEnd.budgetDone)

/-- `click_see_more_button(driver, max_clicks=5)` with the attempt
outcomes supplied by the environment. -/
def click_see_more_button (outcomes : Nat → ClickOutcome) (fuel : Nat) :
    Option (Nat × ClickEnd) :=
  clickRun outcomes 5 fuel 0 0

/-! ## `collect_job_links` (lines 149-175)

Each job card yields `some href` (possibly the empty string, since
`get_attribute` can return an empty value) or `none` when the card has no
`<a>` element (`NoSuchElementException`, line 167).  Line 164 appends only
when `job_link` is truthy (non-empty) and not already collected. -/

/-- The body of the `for` loop over job cards (lines 160-171). -/
def collectStep (acc : List String) (card : Option String) : List String :=
  match card with
  | none => acc
  | some l => if l ≠ "" ∧ l ∉ acc then acc ++ [l] else acc

/-- `collect_job_links(driver)`: fold the card loop from the empty list. -/
def collect_job_links (cards : List (Option String)) : List String :=
  cards.foldl collectStep []

/-- The references the code considers extractable: cards with an `<a>`
whose href is truthy. -/
def extractableRefs (cards : List (Option String)) : List String :=
  (cards.filterMap id).filter (fun l => decide (l ≠ ""))

/-- Insertion step of first-seen dedup (the `job_link not in job_links`
check of line 164, after the truthiness test). -/
def insertStep (acc : List String) (l : String) : List String :=
  if l ∉ acc then acc ++ [l] else acc

/-- Specification-side first-occurrence dedup: keep the head, drop its
later duplicates, recurse. -/
def firstDedup : List String → List String
  | [] => []
  | a :: l => a :: firstDedup (l.filter (fun b => decide (b ≠ a)))
termination_by l => l.length
decreasing_by
  simp only [List.length_cons]
  exact Nat.lt_succ_of_le (List.length_filter_le _ _)

/-! ## `scrape_job_details` (lines 180-232) and the job record -/

/-- One scraped record, as the dict of lines 185-190 (`scrapedAt` is a
wall-clock timestamp appended only at CSV-write time and plays no role in
any claim). -/
structure JobData where
  title : String
  link : String
  date : String
  description : String
deriving DecidableEq

/-- The environment one detail-page visit presents: whether `driver.get`
(line 192), the `WebDriverWait` for `<h1>` (line 196), or the
`page_source`/soup construction (line 202) raise, and which of the three
elements the parsed page contains. -/
structure DetailEnv where
  navExc : Option PyExc
  waitExc : Option PyExc
  soupExc : Option PyExc
  titleEl : Option String
  dateEl : Option String
  descEl : Option String
deriving DecidableEq

/-- The `try` body of `scrape_job_details`: the mutated `job_data` dict
plus the exception that escaped the body, if any.  The dict starts as all
`"N/A"` except `link` (lines 185-190) and is mutated field by field. -/
def scrapeBody (env : DetailEnv) (today0 : Date) (job_link : String) :
    JobData × Option PyExc :=
  let jd : JobData := ⟨naStr, job_link, naStr, naStr⟩
  match env.navExc with
  | some e => (jd, some e)
  | none =>
    match env.waitExc with
    | some e => (jd, some e)
    | none =>
      match env.soupExc with
      | some e => (jd, some e)
      | none =>
        let jd := match env.titleEl with
          | some t => { jd with title := t }
          | none => jd
        let jd := match env.dateEl with
          | some raw => { jd with date := parse_and_format_date today0 raw }
          | none => jd
        let jd := match env.descEl with
          | some dsc => { jd with description := dsc }
          | none => jd
        (jd, none)

/-- `scrape_job_details(driver, job_link)`: both `except` clauses
(lines 226-230) only log, so the function returns the partially mutated
dict whether or not the body raised. -/
def scrape_job_details (env : DetailEnv) (today0 : Date) (job_link : String) :
    JobData :=
  (scrapeBody env today0 job_link).1

/-! ## The CSV writers (lines 276-348)

Files are modelled as their lists of data rows; the header row written on
file creation is skipped symmetrically by every reader (`next(reader,
None)`), so it is elided. -/

/-- `save_to_csv(job_entries)` (lines 276-300): append every entry,
no dedup of its own. -/
def save_to_csv (file : List JobData) (job_entries : List JobData) : List JobData :=
  file ++ job_entries

/-- A row of `today_jobs.csv`: `[Application URL, Name, Date Posted]`
(line 332). -/
structure TodayRow where
  url : String
  name : String
  datePosted : String
deriving DecidableEq

/-- Body of the `for job in job_entries` loop of `save_todays_jobs`
(lines 334-344): state is the file rows so far plus `existing_urls`. -/
def todayStep (st : List TodayRow × List String) (job : JobData) :
    List TodayRow × List String :=
  if job.link ∈ st.2 then st
  else (st.1 ++ [⟨job.link, job.title, job.date⟩], job.link :: st.2)

/-- `save_todays_jobs(job_entries)` (lines 305-348): reload
`existing_urls` from the file (lines 315-326), then append each record
whose link is not present, extending the set as rows are written. -/
def save_todays_jobs (file : List TodayRow) (job_entries : List JobData) :
    List TodayRow :=
  (job_entries.foldl todayStep (file, file.map TodayRow.url)).1

/-! ## The dedup pipeline of `main` (lines 353-413) -/

/-- Accumulator of the `for job_link in job_links` loop (lines 382-399):
`previous_jobs` (a set of titles, modelled as a list queried by
membership), `new_job_entries`, and `todays_job_entries`. -/
structure CycleAcc where
  prev : List String
  entries : List JobData
  todays : List JobData
deriving DecidableEq

/-- One iteration of the per-link loop: skip links already scraped this
cycle (line 385), scrape (line 388), accept the record iff its title is
absent from `previous_jobs` (line 391), additionally collecting it for the
today file iff its date equals `today_str` (line 396). -/
def cycleStep (scrapeOf : String → JobData) (todayStr : String)
    (acc : CycleAcc) (job_link : String) : CycleAcc :=
  if job_link ∈ acc.entries.map JobData.link then acc
  else
    let jd := scrapeOf job_link
    if jd.title ∈ acc.prev then acc
    else
      { prev := jd.title :: acc.prev,
        entries := acc.entries ++ [jd],
        todays := if jd.date = todayStr then acc.todays ++ [jd] else acc.todays }

/-- The per-link loop of one cycle, from a seeded `previous_jobs`. -/
def runCycle (scrapeOf : String → JobData) (todayStr : String)
    (prev : List String) (links : List String) : CycleAcc :=
  links.foldl (cycleStep scrapeOf todayStr) ⟨prev, [], []⟩

/-- Everything one cycle of the scheduler depends on: the value of
`today_str` (line 380), the collected links, and what scraping each link
yields in that cycle. -/
structure CycleInput where
  todayStr : String
  links : List String
  scrapeOf : String → JobData

/-- One cycle's effect on `(previous_jobs, history file)`: run the
per-link loop, then `save_to_csv(new_job_entries)` (line 403). -/
def runStep (st : List String × List JobData) (ci : CycleInput) :
    List String × List JobData :=
  let acc := runCycle ci.scrapeOf ci.todayStr st.1 ci.links
  (acc.prev, save_to_csv st.2 acc.entries)

/-- One process run: seed `previous_jobs` from the history file's title
column (lines 353-364), then fold the cycles; returns the final history
file. -/
def processRun (file : List JobData) (cycles : List CycleInput) : List JobData :=
  (cycles.foldl runStep (file.map JobData.title, file)).2

/-- A sequence of process runs over the same history file (restarts). -/
def processRuns (file : List JobData) (runs : List (List CycleInput)) :
    List JobData :=
  runs.foldl processRun file

/-! ## Claim theorems -/

/-- C1 counterexample: when `setup_driver()` itself raises (session
acquisition, the first state the claim covers), the exception is not
caught — the process terminates, the session is not released, and the
sleep is skipped.  This refutes the claim as stated. -/
theorem c1_setup_failure_counterexample :
    (mainLoopIter (some (PyExc.other ("driver init failed"))) none).crashed = true ∧
    (mainLoopIter (some (PyExc.other ("driver init failed"))) none).released = false ∧
    (mainLoopIter (some (PyExc.other ("driver init failed"))) none).slept = false := by
  exact ⟨rfl, rfl, rfl⟩

/-- C1 (amended): once the session is acquired, any exception raised in the
cycle body (page exhaustion through persisting) is caught at the cycle
boundary, the session is released unconditionally, the process does not
terminate, and the sleep before the next cycle is not skipped.  An
exception during session acquisition itself is outside the `try` and
terminates the process. -/
theorem c1_cycle_failure_contained (bodyResult : Option PyExc) :
    (mainLoopIter none bodyResult).released = true ∧
    (mainLoopIter none bodyResult).slept = true ∧
    (mainLoopIter none bodyResult).crashed = false := by
  cases bodyResult with
  | none => exact ⟨rfl, rfl, rfl⟩
  | some e => exact ⟨rfl, rfl, rfl⟩

/-- C4 counterexample: a raw string that contains "Yesterday" but also
contains "Today" resolves to the current date, not the current date minus
one day, because the "Today" branch is tested first. -/
theorem c4_relative_tokens_counterexample :
    strContainsL (String.toList ("Today and Yesterday")) yesterdayL = true ∧
    parse_and_format_date ⟨3, 15, 2025⟩ ("Today and Yesterday") ≠
      fmtDate (predDate ⟨3, 15, 2025⟩) := by
  exact ⟨by decide, by decide⟩

/-- C4 (amended): if the text remaining after stripping the marker prefix
contains the case-sensitive substring "Today", the normalizer returns the
current date in canonical MM-DD-YYYY form; if that remaining text contains
"Yesterday" and does not contain "Today", it returns the current date
minus one day in the same form. -/
theorem c4_relative_tokens_amended (today0 : Date) (raw : String) :
    (strContainsL (strippedOf raw) todayL = true →
      parse_and_format_date today0 raw = fmtDate today0) ∧
    (strContainsL (strippedOf raw) todayL = false →
      strContainsL (strippedOf raw) yesterdayL = true →
      parse_and_format_date today0 raw = fmtDate (predDate today0)) := by
  constructor
  · intro h
    simp [parse_and_format_date, h]
  · intro h1 h2
    simp [parse_and_format_date, h1, h2]

/-- C4 witness: at a concrete date, "Posted on: Today" resolves to the
current date and "Yesterday" to the day before. -/
theorem c4_relative_tokens_witness :
    parse_and_format_date ⟨3, 15, 2025⟩ ("Posted on: Today") = fmtDate ⟨3, 15, 2025⟩ ∧
    parse_and_format_date ⟨3, 15, 2025⟩ ("Yesterday") = fmtDate (predDate ⟨3, 15, 2025⟩) :=
  ⟨(c4_relative_tokens_amended ⟨3, 15, 2025⟩ ("Posted on: Today")).1 (by decide),
   (c4_relative_tokens_amended ⟨3, 15, 2025⟩ ("Yesterday")).2 (by decide) (by decide)⟩

/-- C5: for raw strings containing neither relative token, the normalizer
tries the four absolute formats in their configured order and returns the
first successful parse rendered canonically (first match wins); if all
four fail it returns the "N/A" sentinel. -/
theorem c5_format_fallback (today0 : Date) (raw : String)
    (hT : strContainsL (strippedOf raw) todayL = false)
    (hY : strContainsL (strippedOf raw) yesterdayL = false) :
    (∀ d : Date, parseAbbrFmt (strippedOf raw) = some d →
       parse_and_format_date today0 raw = fmtDate d) ∧
    (∀ d : Date, parseAbbrFmt (strippedOf raw) = none →
       parseFullFmt (strippedOf raw) = some d →
       parse_and_format_date today0 raw = fmtDate d) ∧
    (∀ d : Date, parseAbbrFmt (strippedOf raw) = none →
       parseFullFmt (strippedOf raw) = none →
       parseSlashFmt (strippedOf raw) = some d →
       parse_and_format_date today0 raw = fmtDate d) ∧
    (∀ d : Date, parseAbbrFmt (strippedOf raw) = none →
       parseFullFmt (strippedOf raw) = none →
       parseSlashFmt (strippedOf raw) = none →
       parseDashFmt (strippedOf raw) = some d →
       parse_and_format_date today0 raw = fmtDate d) ∧
    (parseAbbrFmt (strippedOf raw) = none →
       parseFullFmt (strippedOf raw) = none →
       parseSlashFmt (strippedOf raw) = none →
       parseDashFmt (strippedOf raw) = none →
       parse_and_format_date today0 raw = naStr) := by
  refine ⟨?_, ?_, ?_, ?_, ?_⟩ <;>
    · intros
      simp_all [parse_and_format_date, firstParse]

/-- C5 witness: "01/02/2023" fails the two month-name formats, succeeds on
`%m/%d/%Y`, and is rendered canonically. -/
theorem c5_format_fallback_witness :
    parse_and_format_date ⟨3, 15, 2025⟩ ("01/02/2023") = fmtDate ⟨1, 2, 2023⟩ :=
  (c5_format_fallback ⟨3, 15, 2025⟩ ("01/02/2023") (by decide) (by decide)).2.2.1
    ⟨1, 2, 2023⟩ (by decide) (by decide) (by decide)

/-- C6: for every detail-page environment, the extractor returns a record
whose `link` equals the input reference, and whenever the try body raised
(render-wait timeout or any other exception), the returned record has
every other field equal to the "N/A" sentinel; the handlers cover every
modelled exception, so nothing propagates. -/
theorem c6_extraction_failure_partial_record (env : DetailEnv) (today0 : Date)
    (job_link : String) :
    (scrape_job_details env today0 job_link).link = job_link ∧
    (∀ e : PyExc, (scrapeBody env today0 job_link).2 = some e →
      scrape_job_details env today0 job_link = ⟨naStr, job_link, naStr, naStr⟩) := by
  obtain ⟨nav, wait, soup, t, dt, dsc⟩ := env
  constructor
  · cases nav <;> cases wait <;> cases soup <;> cases t <;> cases dt <;> cases dsc <;> rfl
  · intro e he
    cases nav with
    | some e0 => rfl
    | none =>
      cases wait with
      | some e0 => rfl
      | none =>
        cases soup with
        | some e0 => rfl
        | none =>
          cases t <;> cases dt <;> cases dsc <;> simp [scrapeBody] at he

/-- C6 witness: a render-wait timeout on a concrete page yields the
all-"N/A" record with the input link, even though the page held content. -/
theorem c6_extraction_failure_partial_record_witness :
    scrape_job_details
      ⟨none, some PyExc.timeoutExc, none, some ("T"), some ("Today"), some ("D")⟩
      ⟨3, 15, 2025⟩ ("http-x") = ⟨naStr, "http-x", naStr, naStr⟩ :=
  (c6_extraction_failure_partial_record
      ⟨none, some PyExc.timeoutExc, none, some ("T"), some ("Today"), some ("D")⟩
      ⟨3, 15, 2025⟩ ("http-x")).2 PyExc.timeoutExc rfl

/-- C7: evaluated at the failing input — an outcome stream in which every
click attempt is intercepted — the bounded-click loop never terminates:
no amount of fuel makes `clickRun` return, because the intercepted branch
neither increments `clicks` nor breaks.  This contradicts the claimed
termination for every outcome sequence (and the docstring's stated purpose
of `max_clicks`, "to prevent infinite loops"). -/
theorem c7_intercepted_loop_diverges :
    ∀ fuel i : Nat, clickRun (fun _ => ClickOutcome.intercepted) 5 fuel 0 i = none := by
  intro fuel
  induction fuel with
  | zero => intro i; rfl
  | succ n ih => intro i; simpa [clickRun] using ih (i + 1)

/-! ### Helper lemmas for the link collector -/

theorem collect_foldl_eq (cards : List (Option String)) :
    ∀ acc : List String,
      List.foldl collectStep acc cards = List.foldl insertStep acc (extractableRefs cards) := by
  induction cards with
  | nil => intro acc; rfl
  | cons c t ih =>
    intro acc
    cases c with
    | none => simpa [extractableRefs, collectStep] using ih acc
    | some l =>
      by_cases hl : l = ""
      · subst hl
        simpa [extractableRefs, collectStep] using ih acc
      · have hstep : collectStep acc (some l) = insertStep acc l := by
          simp [collectStep, insertStep, hl]
        have hext : extractableRefs (some l :: t) = l :: extractableRefs t := by
          simp [extractableRefs, hl]
        rw [List.foldl_cons, hstep, hext, List.foldl_cons, ih]

theorem insert_foldl_eq_firstDedup :
    ∀ (l : List String) (acc : List String),
      List.foldl insertStep acc l =
        acc ++ firstDedup (l.filter (fun x => decide (x ∉ acc))) := by
  intro l
  induction l with
  | nil => intro acc; simp [firstDedup]
  | cons a t ih =>
    intro acc
    by_cases ha : a ∈ acc
    · have : insertStep acc a = acc := by simp [insertStep, ha]
      rw [List.foldl_cons, this, ih acc]
      simp [ha]
    · have hstep : insertStep acc a = acc ++ [a] := by simp [insertStep, ha]
      have hfilt :
          (t.filter (fun x => decide (x ∉ acc))).filter (fun b => decide (b ≠ a)) =
            t.filter (fun x => decide (x ∉ acc ++ [a])) := by
        rw [List.filter_filter]
        apply List.filter_congr
        intro x _
        have hiff : (x ≠ a ∧ x ∉ acc) ↔ x ∉ acc ++ [a] := by
          simp only [List.mem_append, List.mem_singleton, not_or]
          exact and_comm
        rw [← Bool.decide_and, decide_eq_decide]
        exact hiff
      rw [List.foldl_cons, hstep, ih (acc ++ [a])]
      have hcons :
          (a :: t).filter (fun x => decide (x ∉ acc)) =
            a :: t.filter (fun x => decide (x ∉ acc)) := by
        simp [ha]
      rw [hcons, firstDedup, hfilt, List.append_assoc, List.singleton_append]

theorem firstDedup_mem_aux :
    ∀ (n : Nat) (l : List String), l.length ≤ n →
      ∀ x, x ∈ firstDedup l ↔ x ∈ l := by
  intro n
  induction n with
  | zero =>
    intro l hl x
    cases l with
    | nil => simp [firstDedup]
    | cons a t => simp at hl
  | succ n ih =>
    intro l hl x
    cases l with
    | nil => simp [firstDedup]
    | cons a t =>
      rw [firstDedup]
      have ht : (t.filter (fun b => decide (b ≠ a))).length ≤ n :=
        le_trans (List.length_filter_le _ _) (by simpa using hl)
      have hmem := ih _ ht x
      have hx2 : x ∈ List.filter (fun b => decide (b ≠ a)) t ↔ x ∈ t ∧ x ≠ a := by
        simp [List.mem_filter]
      rw [List.mem_cons, List.mem_cons, hmem, hx2]
      by_cases hxa : x = a
      · simp [hxa]
      · simp [hxa]

theorem firstDedup_mem (l : List String) (x : String) :
    x ∈ firstDedup l ↔ x ∈ l :=
  firstDedup_mem_aux l.length l le_rfl x

theorem firstDedup_nodup_aux :
    ∀ (n : Nat) (l : List String), l.length ≤ n → (firstDedup l).Nodup := by
  intro n
  induction n with
  | zero =>
    intro l hl
    cases l with
    | nil => simp [firstDedup]
    | cons a t => simp at hl
  | succ n ih =>
    intro l hl
    cases l with
    | nil => simp [firstDedup]
    | cons a t =>
      rw [firstDedup]
      have ht : (t.filter (fun b => decide (b ≠ a))).length ≤ n :=
        le_trans (List.length_filter_le _ _) (by simpa using hl)
      refine List.nodup_cons.mpr ⟨?_, ih _ ht⟩
      intro hmem
      have : a ∈ t.filter (fun b => decide (b ≠ a)) :=
        (firstDedup_mem _ a).mp hmem
      simp [List.mem_filter] at this

theorem firstDedup_nodup (l : List String) : (firstDedup l).Nodup :=
  firstDedup_nodup_aux l.length l le_rfl

theorem firstDedup_toFinset (l : List String) :
    (firstDedup l).toFinset = l.toFinset := by
  ext x
  simp [List.mem_toFinset, firstDedup_mem]

/-- C8: the link collector returns exactly the first-occurrence dedup of
the extractable references, in first-seen order; in particular the result
has no duplicates and its length is the number of distinct extractable
references (so N cards, all extractable, with exactly one duplicated pair
yield N−1 entries). -/
theorem c8_collect_links_first_seen_unique (cards : List (Option String)) :
    collect_job_links cards = firstDedup (extractableRefs cards) ∧
    (collect_job_links cards).Nodup ∧
    (collect_job_links cards).length = (extractableRefs cards).toFinset.card := by
  have h1 : collect_job_links cards = firstDedup (extractableRefs cards) := by
    rw [collect_job_links, collect_foldl_eq cards [],
       insert_foldl_eq_firstDedup (extractableRefs cards) []]
    simp
  refine ⟨h1, h1 ▸ firstDedup_nodup _, ?_⟩
  rw [h1, ← firstDedup_toFinset (extractableRefs cards),
     List.toFinset_card_of_nodup (firstDedup_nodup _)]

/-! ### Helper lemmas for the history-log invariant -/

/-- Invariant maintained by the per-link loop: the titles of the history
file plus the titles accepted so far this cycle are pairwise distinct, and
all of them are in `previous_jobs`. -/
def cycleInv (file : List JobData) (acc : CycleAcc) : Prop :=
  ((file ++ acc.entries).map JobData.title).Nodup ∧
  ∀ t ∈ (file ++ acc.entries).map JobData.title, t ∈ acc.prev

theorem cycleStep_inv (scrapeOf : String → JobData) (todayStr : String)
    (file : List JobData) (acc : CycleAcc) (job_link : String)
    (h : cycleInv file acc) :
    cycleInv file (cycleStep scrapeOf todayStr acc job_link) := by
  obtain ⟨hnd, hsub⟩ := h
  by_cases h1 : job_link ∈ acc.entries.map JobData.link
  · simp only [cycleStep, if_pos h1]
    exact ⟨hnd, hsub⟩
  · by_cases h2 : (scrapeOf job_link).title ∈ acc.prev
    · simp only [cycleStep, if_neg h1, if_pos h2]
      exact ⟨hnd, hsub⟩
    · simp only [cycleStep, if_neg h1, if_neg h2]
      have hmap : ((file ++ (acc.entries ++ [scrapeOf job_link])).map JobData.title) =
          ((file ++ acc.entries).map JobData.title) ++ [(scrapeOf job_link).title] := by
        simp
      constructor
      · rw [hmap, List.nodup_append]
        refine ⟨hnd, List.nodup_singleton _, ?_⟩
        intro t htX hmem1
        rw [List.mem_singleton] at hmem1
        subst hmem1
        exact h2 (hsub _ htX)
      · intro t ht
        rw [hmap, List.mem_append, List.mem_singleton] at ht
        rcases ht with ht | ht
        · exact List.mem_cons_of_mem _ (hsub _ ht)
        · subst ht
          exact List.mem_cons_self _ _

theorem foldl_cycle_inv (scrapeOf : String → JobData) (todayStr : String)
    (file : List JobData) :
    ∀ (links : List String) (acc : CycleAcc), cycleInv file acc →
      cycleInv file (links.foldl (cycleStep scrapeOf todayStr) acc) := by
  intro links
  induction links with
  | nil => intro acc h; exact h
  | cons l t ih =>
    intro acc h
    exact ih _ (cycleStep_inv scrapeOf todayStr file acc l h)

theorem runCycle_inv (scrapeOf : String → JobData) (todayStr : String)
    (prev : List String) (links : List String) (file : List JobData)
    (hnd : (file.map JobData.title).Nodup)
    (hsub : ∀ t ∈ file.map JobData.title, t ∈ prev) :
    cycleInv file (runCycle scrapeOf todayStr prev links) := by
  apply foldl_cycle_inv
  constructor
  · simpa using hnd
  · simpa using hsub

theorem runStep_inv (st : List String × List JobData) (ci : CycleInput)
    (hnd : (st.2.map JobData.title).Nodup)
    (hsub : ∀ t ∈ st.2.map JobData.title, t ∈ st.1) :
    ((runStep st ci).2.map JobData.title).Nodup ∧
    ∀ t ∈ (runStep st ci).2.map JobData.title, t ∈ (runStep st ci).1 := by
  have h := runCycle_inv ci.scrapeOf ci.todayStr st.1 ci.links st.2 hnd hsub
  obtain ⟨h1, h2⟩ := h
  simp only [runStep, save_to_csv]
  exact ⟨h1, h2⟩

theorem foldl_run_inv :
    ∀ (cycles : List CycleInput) (st : List String × List JobData),
      (st.2.map JobData.title).Nodup →
      (∀ t ∈ st.2.map JobData.title, t ∈ st.1) →
      ((cycles.foldl runStep st).2.map JobData.title).Nodup ∧
      ∀ t ∈ (cycles.foldl runStep st).2.map JobData.title,
        t ∈ (cycles.foldl runStep st).1 := by
  intro cycles
  induction cycles with
  | nil => intro st h1 h2; exact ⟨h1, h2⟩
  | cons c t ih =>
    intro st h1 h2
    have h := runStep_inv st c h1 h2
    exact ih _ h.1 h.2

theorem processRun_title_nodup (file : List JobData) (cycles : List CycleInput)
    (hnd : (file.map JobData.title).Nodup) :
    ((processRun file cycles).map JobData.title).Nodup := by
  unfold processRun
  exact (foldl_run_inv cycles (file.map JobData.title, file) hnd (fun t ht => ht)).1

theorem processRuns_title_nodup (runs : List (List CycleInput)) :
    ∀ file : List JobData, (file.map JobData.title).Nodup →
      ((processRuns file runs).map JobData.title).Nodup := by
  induction runs with
  | nil => intro file h; exact h
  | cons r t ih =>
    intro file h
    exact ih _ (processRun_title_nodup file r h)

/-- C2: starting from an empty (freshly created) history log, after any
number of process runs — each seeding `previous_jobs` from the log once at
start and extending it as records are accepted — the history log never
contains two rows with the same title. -/
theorem c2_history_titles_unique (runs : List (List CycleInput)) :
    ((processRuns [] runs).map JobData.title).Nodup :=
  processRuns_title_nodup runs [] (by simp)

/-! ### Helper lemmas for the today-log invariant -/

theorem todayStep_inv (st : List TodayRow × List String) (job : JobData)
    (hnd : (st.1.map TodayRow.url).Nodup)
    (hsub : ∀ u ∈ st.1.map TodayRow.url, u ∈ st.2) :
    ((todayStep st job).1.map TodayRow.url).Nodup ∧
    ∀ u ∈ (todayStep st job).1.map TodayRow.url, u ∈ (todayStep st job).2 := by
  by_cases h : job.link ∈ st.2
  · simp only [todayStep, if_pos h]
    exact ⟨hnd, hsub⟩
  · simp only [todayStep, if_neg h]
    constructor
    · simp only [List.map_append, List.map_cons, List.map_nil, List.nodup_append]
      refine ⟨hnd, List.nodup_singleton _, ?_⟩
      intro u hu hmem
      rw [List.mem_singleton] at hmem
      subst hmem
      exact h (hsub _ hu)
    · intro u hu
      simp only [List.map_append, List.map_cons, List.map_nil, List.mem_append,
        List.mem_singleton] at hu
      rcases hu with hu | hu
      · exact List.mem_cons_of_mem _ (hsub _ hu)
      · subst hu
        exact List.mem_cons_self _ _

theorem today_foldl_inv :
    ∀ (batch : List JobData) (st : List TodayRow × List String),
      (st.1.map TodayRow.url).Nodup →
      (∀ u ∈ st.1.map TodayRow.url, u ∈ st.2) →
      ((batch.foldl todayStep st).1.map TodayRow.url).Nodup ∧
      ∀ u ∈ (batch.foldl todayStep st).1.map TodayRow.url,
        u ∈ (batch.foldl todayStep st).2 := by
  intro batch
  induction batch with
  | nil => intro st h1 h2; exact ⟨h1, h2⟩
  | cons j t ih =>
    intro st h1 h2
    have h := todayStep_inv st j h1 h2
    exact ih _ h.1 h.2

theorem save_todays_jobs_nodup (file : List TodayRow) (batch : List JobData)
    (hnd : (file.map TodayRow.url).Nodup) :
    ((save_todays_jobs file batch).map TodayRow.url).Nodup := by
  unfold save_todays_jobs
  exact (today_foldl_inv batch (file, file.map TodayRow.url) hnd (fun u hu => hu)).1

theorem todayStep_append (st : List TodayRow × List String) (job : JobData) :
    ∃ rest, (todayStep st job).1 = st.1 ++ rest := by
  by_cases h : job.link ∈ st.2
  · exact ⟨[], by simp [todayStep, h]⟩
  · exact ⟨[⟨job.link, job.title, job.date⟩], by simp [todayStep, h]⟩

theorem today_foldl_append :
    ∀ (batch : List JobData) (st : List TodayRow × List String),
      ∃ rest, (batch.foldl todayStep st).1 = st.1 ++ rest := by
  intro batch
  induction batch with
  | nil => intro st; exact ⟨[], by simp⟩
  | cons j t ih =>
    intro st
    obtain ⟨r1, h1⟩ := todayStep_append st j
    obtain ⟨r2, h2⟩ := ih (todayStep st j)
    exact ⟨r1 ++ r2, by rw [List.foldl_cons, h2, h1, List.append_assoc]⟩

theorem save_todays_jobs_foldl_nodup :
    ∀ (batches : List (List JobData)) (file : List TodayRow),
      (file.map TodayRow.url).Nodup →
      ((batches.foldl save_todays_jobs file).map TodayRow.url).Nodup := by
  intro batches
  induction batches with
  | nil => intro file h; exact h
  | cons b t ih =>
    intro file h
    exact ih _ (save_todays_jobs_nodup file b h)

/-- C3: `save_todays_jobs` reloads the link set from the file, writes only
records whose link is absent, and extends the set after each write: from a
file with pairwise-distinct links it produces a file with pairwise-distinct
links, only ever appending; consequently any sequence of batches written
from an empty file — duplicate links within a batch, repeated batches
across restarts included — yields a today log with no two rows sharing a
link. -/
theorem c3_today_links_unique :
    (∀ (file : List TodayRow) (batch : List JobData),
        (file.map TodayRow.url).Nodup →
        ((save_todays_jobs file batch).map TodayRow.url).Nodup ∧
        ∃ rest, save_todays_jobs file batch = file ++ rest) ∧
    ∀ batches : List (List JobData),
      ((batches.foldl save_todays_jobs []).map TodayRow.url).Nodup := by
  constructor
  · intro file batch hnd
    refine ⟨save_todays_jobs_nodup file batch hnd, ?_⟩
    unfold save_todays_jobs
    exact today_foldl_append batch (file, file.map TodayRow.url)
  · intro batches
    exact save_todays_jobs_foldl_nodup batches [] (by simp)

/-- C3 witness: a single batch holding two records with the same link,
written to an empty file, yields one row (no duplicate links) and only
appends. -/
theorem c3_today_links_unique_witness :
    ((save_todays_jobs []
        [⟨"T1", "L", "01-01-2025", "D1"⟩, ⟨"T2", "L", "01-01-2025", "D2"⟩]).map
        TodayRow.url).Nodup ∧
    ∃ rest, save_todays_jobs []
        [⟨"T1", "L", "01-01-2025", "D1"⟩, ⟨"T2", "L", "01-01-2025", "D2"⟩] =
      [] ++ rest :=
  c3_today_links_unique.1 []
    [⟨"T1", "L", "01-01-2025", "D1"⟩, ⟨"T2", "L", "01-01-2025", "D2"⟩] (by simp)

/-- C9: for a link that survives the within-cycle duplicate check, the
record is accepted into `new_job_entries` iff its title is absent from the
in-memory `previous_jobs` set at classification time, and it is routed to
the today batch iff it is new and its normalized date equals `today_str`. -/
theorem c9_classification_iff (scrapeOf : String → JobData) (todayStr : String)
    (acc : CycleAcc) (job_link : String)
    (hl : job_link ∉ acc.entries.map JobData.link) :
    ((cycleStep scrapeOf todayStr acc job_link).entries =
        acc.entries ++ [scrapeOf job_link] ↔
      (scrapeOf job_link).title ∉ acc.prev) ∧
    ((cycleStep scrapeOf todayStr acc job_link).todays =
        acc.todays ++ [scrapeOf job_link] ↔
      ((scrapeOf job_link).title ∉ acc.prev ∧
        (scrapeOf job_link).date = todayStr)) := by
  have hne : ∀ (l : List JobData) (a : JobData), l ≠ l ++ [a] := by
    intro l a h
    have hlen := congrArg List.length h
    simp at hlen
  by_cases h2 : (scrapeOf job_link).title ∈ acc.prev
  · simp only [cycleStep, if_neg hl, if_pos h2]
    constructor
    · exact ⟨fun he => absurd he (hne _ _), fun hn => absurd h2 hn⟩
    · constructor
      · intro ht
        exact absurd ht (hne _ _)
      · rintro ⟨hn, _⟩
        exact absurd h2 hn
  · by_cases h3 : (scrapeOf job_link).date = todayStr
    · simp only [cycleStep, if_neg hl, if_neg h2, if_pos h3]
      exact ⟨⟨fun _ => h2, fun _ => trivial⟩, ⟨fun _ => ⟨h2, h3⟩, fun _ => trivial⟩⟩
    · simp only [cycleStep, if_neg hl, if_neg h2, if_neg h3]
      refine ⟨⟨fun _ => h2, fun _ => trivial⟩, ?_, ?_⟩
      · intro ht
        exact absurd ht (hne _ _)
      · rintro ⟨_, hd⟩
        exact absurd hd h3

/-- C9 witness: a fresh record at an empty accumulator, dated `today_str`,
is classified new and routed to the today batch. -/
theorem c9_classification_iff_witness :
    ((cycleStep (fun l => ⟨"T", l, "01-01-2025", "D"⟩) ("01-01-2025")
        ⟨[], [], []⟩ ("L")).entries = [] ++ [⟨"T", "L", "01-01-2025", "D"⟩] ↔
      ("T" : String) ∉ ([] : List String)) ∧
    ((cycleStep (fun l => ⟨"T", l, "01-01-2025", "D"⟩) ("01-01-2025")
        ⟨[], [], []⟩ ("L")).todays = [] ++ [⟨"T", "L", "01-01-2025", "D"⟩] ↔
      (("T" : String) ∉ ([] : List String) ∧ ("01-01-2025" : String) = "01-01-2025")) :=
  c9_classification_iff (fun l => ⟨"T", l, "01-01-2025", "D"⟩) ("01-01-2025")
    ⟨[], [], []⟩ ("L") (by simp)

/-- C10: every extraction whose render wait raises (before any field is
read) yields a record titled "N/A"; and because the history pipeline dedups
by title, the history log accumulated over any number of runs from an empty
file contains at most one row with title "N/A" — every later fully-failed
record, whatever its link, is discarded as a duplicate. -/
theorem c10_single_failed_record :
    (∀ (env : DetailEnv) (today0 : Date) (job_link : String),
        env.navExc = none → env.waitExc = some PyExc.timeoutExc →
        scrape_job_details env today0 job_link = ⟨naStr, job_link, naStr, naStr⟩) ∧
    ∀ runs : List (List CycleInput),
      ((processRuns [] runs).map JobData.title).count naStr ≤ 1 := by
  constructor
  · intro env today0 job_link h1 h2
    obtain ⟨nav, wait, soup, t, dt, dsc⟩ := env
    cases nav with
    | some e => simp at h1
    | none =>
      cases wait with
      | none => simp at h2
      | some e => rfl
  · intro runs
    have h := processRuns_title_nodup runs [] (by simp)
    exact List.nodup_iff_count_le_one.mp h naStr

/-- C10 witness: a concrete fully-failed extraction produces the record
with the sentinel title. -/
theorem c10_single_failed_record_witness :
    scrape_job_details ⟨none, some PyExc.timeoutExc, none, none, none, none⟩
      ⟨1, 1, 2025⟩ ("LX") = ⟨naStr, "LX", naStr, naStr⟩ :=
  c10_single_failed_record.1 ⟨none, some PyExc.timeoutExc, none, none, none, none⟩
    ⟨1, 1, 2025⟩ ("LX") rfl rfl
